import Mathlib

/-
Verification development for the MEMD (multivariate empirical mode decomposition)
engine of the WaveSpace repository, file
Modules/Decomposition/MEMD_Matlab_translation.py.

The numeric core is embedded shallowly over the rationals: numpy arrays become
lists, elementwise arithmetic becomes zipWith arithmetic, and index vectors
become lists of naturals.  Real-valued trigonometry (the direction sampler)
is embedded over the reals.  The two genuinely numerical sub-routines that the
claims do not depend on pointwise -- the cubic-spline evaluation used by the
envelope estimator and the square root used for the amplitude estimate -- are
taken as function parameters, so that every theorem below is universally
quantified over them.
-/

/-- Decidable equality for `Except` values, used to evaluate the embedded
fallible functions on concrete inputs. -/
instance {ε α : Type _} [DecidableEq ε] [DecidableEq α] : DecidableEq (Except ε α) := fun a b =>
  match a, b with
  | .error x, .error y =>
      if h : x = y then isTrue (by rw [h]) else isFalse (fun hc => h (Except.error.inj hc))
  | .ok x, .ok y =>
      if h : x = y then isTrue (by rw [h]) else isFalse (fun hc => h (Except.ok.inj hc))
  | .error _, .ok _ => isFalse (fun hc => Except.noConfusion hc)
  | .ok _, .error _ => isFalse (fun hc => Except.noConfusion hc)

namespace MEMD

/-! ## Generic list helpers mirroring the numpy primitives used by the code -/

/-- Indices of the elements of a list satisfying a predicate, starting at a
given offset: the embedding of one-dimensional `np.where(...)[0]`. -/
def idxWhereAux (p : α → Bool) : List α → ℕ → List ℕ
  | [], _ => []
  | a :: rest, i => if p a then i :: idxWhereAux p rest (i + 1) else idxWhereAux p rest (i + 1)

/-- Embedding of `np.where(cond)[0]` for a 1-D array. -/
def idxWhere (p : α → Bool) (l : List α) : List ℕ := idxWhereAux p l 0

/-- Embedding of `np.diff` for a rational-valued 1-D array. -/
def diffQ (l : List ℚ) : List ℚ := List.zipWith (fun b a => b - a) l.tail l

/-- Embedding of `np.diff` for an index array (the index arrays in the code are
strictly increasing, so natural subtraction is exact). -/
def diffNat (l : List ℕ) : List ℕ := List.zipWith (fun b a => b - a) l.tail l

/-- Embedding of `np.diff` for an integer-valued 1-D array. -/
def diffInt (l : List ℤ) : List ℤ := List.zipWith (fun b a => b - a) l.tail l

/-- Embedding of `np.sign` on rationals. -/
def qsign (q : ℚ) : ℚ := if q < 0 then -1 else if q = 0 then 0 else 1

/-- Python slice `l[a:b]` with non-negative bounds. -/
def slice (l : List α) (a b : ℕ) : List α := (l.drop a).take (b - a)

/-- Insertion into a sorted list of naturals, used to embed `np.sort`. -/
def insertSorted (n : ℕ) : List ℕ → List ℕ
  | [] => [n]
  | m :: rest => if n ≤ m then n :: m :: rest else m :: insertSorted n rest

/-- Embedding of `np.sort` on an index array. -/
def sortNat (l : List ℕ) : List ℕ := l.foldr insertSorted []

/-- Embedding of `np.round (s / 2)` for a natural number `s`: numpy rounds
halves to the nearest even integer. -/
def npRoundHalf (s : ℕ) : ℕ :=
  if s % 2 = 0 then s / 2 else (if (s / 2) % 2 = 0 then s / 2 else s / 2 + 1)

/-! ## Signal and matrix model -/

/-- A multivariate signal: `N` rows (samples), `N_dim` columns (channels). -/
abbrev Mat := List (List ℚ)

/-- A direction vector in channel space. -/
abbrev Vec := List ℚ

/-- Dot product of two rational vectors. -/
def dotQ (u v : List ℚ) : ℚ := (List.zipWith (fun a b => a * b) u v).sum

/-- Embedding of `np.dot(m, dir_vec)`: the projection of the signal matrix on a
direction vector, one scalar per sample. -/
def project (m : Mat) (d : Vec) : List ℚ := m.map (fun row => dotQ row d)

/-- Pointwise sum of two rational vectors. -/
def vecAdd (u v : List ℚ) : List ℚ := List.zipWith (fun a b => a + b) u v

/-- Pointwise difference of two rational vectors. -/
def vecSub (u v : List ℚ) : List ℚ := List.zipWith (fun a b => a - b) u v

/-- Pointwise sum of two signal matrices. -/
def matAdd (A B : Mat) : Mat := List.zipWith vecAdd A B

/-- Pointwise difference of two signal matrices. -/
def matSub (A B : Mat) : Mat := List.zipWith vecSub A B

/-- The all-zero `N × N_dim` signal matrix, `np.zeros((N, N_dim))`. -/
def zeroMat (N N_dim : ℕ) : Mat := List.replicate N (List.replicate N_dim 0)

/-- Embedding of `np.max(np.abs(m))` (the entries scanned are absolute values,
hence non-negative, so a fold of `max` from `0` computes the maximum). -/
def maxAbs (mt : Mat) : ℚ := ((mt.map (fun row => row.map (fun v => |v|))).flatten).foldl max 0

/-! ## Extrema detector: `peaks`, `local_peaks` (lines 351-395) -/

/-- Embedding of `peaks` (lines 351-356): `dX = sign(diff(X))`, and a strict
local maximum is an index where the sign of the difference switches from
positive to negative.  Returns the pair `(pks_max, locs_max)`. -/
def peaks (X : List ℚ) : List ℚ × List ℕ :=
  let dX := List.zipWith (fun b a => qsign (b - a)) X.tail X
  let locs_max :=
    (idxWhere (fun pr => decide (0 < pr.1) && decide (pr.2 < 0)) (dX.zip dX.tail)).map
      (fun i => i + 1)
  (locs_max.map (fun i => X.getD i 0), locs_max)

/-- The literal `1e-5` as a rational (`mkRat` keeps the constant kernel-reducible). -/
def eps5 : ℚ := mkRat 1 100000

/-- The degenerate-input guard of `local_peaks` (line 361): the Python code
tests `all(x < 1e-5)` -- a signed comparison, with no absolute value. -/
def degenerate_guard (x : List ℚ) : Bool := x.all (fun v => decide (v < eps5))

/-- Embedding of `local_peaks` (lines 360-395).  The input trace is modelled
one-dimensionally (in the code it is the `(N,1)`-shaped projection
`np.dot(m, dir_vec)`); when the degenerate guard fires, the code replaces the
input by `np.zeros((1, len(x)))`, whose detection result is the empty pair of
index sets, exactly as for the 1-D all-zero sequence used here. -/
def local_peaks (x0 : List ℚ) : List ℕ × List ℕ :=
  let x := if degenerate_guard x0 then List.replicate x0.length 0 else x0
  let m := x.length - 1
  let dy := diffQ x
  let a := idxWhere (fun v => decide (v ≠ 0)) dy
  let lm := (idxWhere (fun d => decide (d ≠ 1)) (diffNat a)).map (fun i => i + 1)
  let a2 := lm.foldl (fun acc j => acc.set j (a.getD j 0 - (a.getD j 0 - a.getD (j - 1) 0) / 2)) a
  let a3 := a2 ++ [m]
  let ya := a3.map (fun i => x.getD i 0)
  if 1 < ya.length then
    let loc_max := (peaks ya).2
    let loc_min := (peaks (ya.map (fun v => -v))).2
    let indmin := if 0 < loc_min.length then loc_min.map (fun i => a3.getD i 0) else []
    let indmax := if 0 < loc_max.length then loc_max.map (fun i => a3.getD i 0) else []
    (indmin, indmax)
  else ([], [])

/-! ## `zero_crossings` (lines 108-125) -/

/-- Embedding of `zero_crossings` (lines 108-125): sign changes between
consecutive samples, plus, when the signal contains zero samples, either those
indices themselves or -- when some zeros are adjacent -- the rounded midpoints of
the zero runs.  The zero-run branch is embedded as the intended 1-D
computation `np.diff([0, zer, 0])` on the flattened trace. -/
def zero_crossings (x : List ℚ) : List ℕ :=
  let indzer := idxWhere (fun pr => decide (pr.1 * pr.2 < 0)) (x.zip x.tail)
  if x.any (fun v => decide (v = 0)) then
    let iz := idxWhere (fun v => decide (v = 0)) x
    let indz :=
      if (diffNat iz).any (fun d => decide (d = 1)) then
        let zer : List ℤ := x.map (fun v => if v = 0 then 1 else 0)
        let dz := diffInt ([0] ++ zer ++ [0])
        let debz := idxWhere (fun d => decide (d = 1)) dz
        let finz := (idxWhere (fun d => decide (d = -1)) dz).map (fun i => i - 1)
        List.zipWith (fun a b => npRoundHalf (a + b)) debz finz
      else iz
    sortNat (indzer ++ indz)
  else indzer

/-! ## Boundary extender: `boundary_conditions` (lines 130-227)

Mirror-symmetric extension of the extrema index sets beyond both signal edges.
`sys.exit('bug')` is embedded as `Except.error "bug"`.  Out-of-range numpy
indexing (impossible for the extrema sequences produced by `local_peaks`) is
totalised with `getD` defaults. -/

/-- Result of the boundary extender: either the projection has fewer than 3
extrema in total (`mode = 0` in the code), or the extended axes and values. -/
inductive BCResult
  | insufficient
  | extended (tmin tmax : List ℚ) (zmin zmax : Mat)
deriving DecidableEq

/-- The extension part of `boundary_conditions` (lines 144-227), reached only
when at least 3 extrema exist. -/
def boundary_extend (indmin indmax : List ℕ) (t x : List ℚ) (z : Mat) (nbsym : ℕ) :
    Except String (List ℚ × List ℚ × Mat × Mat) :=
  let lx := x.length - 1
  let end_max := indmax.length - 1
  let end_min := indmin.length - 1
  let im0 := indmax.getD 0 0
  let in0 := indmin.getD 0 0
  let imL := indmax.getD end_max 0
  let inL := indmin.getD end_min 0
  let xAt := fun (i : ℕ) => x.getD i 0
  let tAt := fun (i : ℕ) => t.getD i 0
  -- left boundary case analysis (lines 145-165)
  let left :=
    if im0 < in0 then
      if xAt in0 < xAt 0 then
        ((slice indmax 1 (min (end_max + 1) (nbsym + 1))).reverse,
         (slice indmin 0 (min (end_min + 1) nbsym)).reverse, im0)
      else
        ((slice indmax 0 (min (end_max + 1) nbsym)).reverse,
         (slice indmin 0 (min (end_min + 1) (nbsym - 1))).reverse ++ [0], 0)
    else
      if xAt 0 < xAt im0 then
        ((slice indmax 0 (min (end_max + 1) nbsym)).reverse,
         (slice indmin 1 (min (end_min + 1) (nbsym + 1))).reverse, in0)
      else
        ((slice indmax 0 (min (end_max + 1) (nbsym - 1))).reverse ++ [0],
         (slice indmin 0 (min (end_min + 1) nbsym)).reverse, 0)
  let lmax := left.1
  let lmin := left.2.1
  let lsym := left.2.2
  -- right boundary case analysis (lines 167-187)
  let right :=
    if imL < inL then
      if xAt lx < xAt imL then
        ((indmax.drop (end_max + 1 - nbsym)).reverse,
         ((indmin.drop (end_min - nbsym)).dropLast).reverse, inL)
      else
        ([lx] ++ (indmax.drop (end_max + 2 - nbsym)).reverse,
         (indmin.drop (end_min + 1 - nbsym)).reverse, lx)
    else
      if xAt inL < xAt lx then
        (((indmax.drop (end_max - nbsym)).dropLast).reverse,
         (indmin.drop (end_min + 1 - nbsym)).reverse, imL)
      else
        ((indmax.drop (end_max + 1 - nbsym)).reverse,
         [lx] ++ (indmin.drop (end_min + 2 - nbsym)).reverse, lx)
  let rmax := right.1
  let rmin := right.2.1
  let rsym := right.2.2
  let tlmin := lmin.map (fun j => 2 * tAt lsym - tAt j)
  let tlmax := lmax.map (fun j => 2 * tAt lsym - tAt j)
  let trmin := rmin.map (fun j => 2 * tAt rsym - tAt j)
  let trmax := rmax.map (fun j => 2 * tAt rsym - tAt j)
  -- left fallback when the symmetrized part does not extend enough (195-204);
  -- the code compares lsym against the literal 1 before re-mirroring around 0
  let leftStage : Except String (List ℕ × List ℕ × List ℚ × List ℚ) :=
    if tAt 0 < tlmin.getD 0 0 ∨ tAt 0 < tlmax.getD 0 0 then
      let lmax2 := if lsym = im0 then (slice indmax 0 (min (end_max + 1) nbsym)).reverse else lmax
      let lmin2 := if lsym = im0 then lmin else (slice indmin 0 (min (end_min + 1) nbsym)).reverse
      if lsym = 1 then .error ("bug")
      else
        .ok (lmax2, lmin2, lmin2.map (fun j => 2 * tAt 0 - tAt j),
             lmax2.map (fun j => 2 * tAt 0 - tAt j))
    else .ok (lmax, lmin, tlmin, tlmax)
  -- right fallback (206-215); the code compares rsym against the edge index lx
  let rightStage : Except String (List ℕ × List ℕ × List ℚ × List ℚ) :=
    if trmin.getD (trmin.length - 1) 0 < tAt lx ∨ trmax.getD (trmax.length - 1) 0 < tAt lx then
      let rmax2 := if rsym = imL then (indmax.drop (end_max + 1 - nbsym)).reverse else rmax
      let rmin2 := if rsym = imL then rmin else (indmin.drop (end_min + 1 - nbsym)).reverse
      if rsym = lx then .error ("bug")
      else
        .ok (rmax2, rmin2, rmin2.map (fun j => 2 * tAt lx - tAt j),
             rmax2.map (fun j => 2 * tAt lx - tAt j))
    else .ok (rmax, rmin, trmin, trmax)
  match leftStage, rightStage with
  | .error e, _ => .error e
  | .ok _, .error e => .error e
  | .ok (lmax3, lmin3, tlmin3, tlmax3), .ok (rmax3, rmin3, trmin3, trmax3) =>
      let zrow := fun (i : ℕ) => z.getD i []
      .ok (tlmin3 ++ indmin.map tAt ++ trmin3,
           tlmax3 ++ indmax.map tAt ++ trmax3,
           lmin3.map zrow ++ indmin.map zrow ++ rmin3.map zrow,
           lmax3.map zrow ++ indmax.map zrow ++ rmax3.map zrow)

/-- Embedding of `boundary_conditions` (lines 130-227). -/
def boundary_conditions (indmin indmax : List ℕ) (t x : List ℚ) (z : Mat) (nbsym : ℕ) :
    Except String BCResult :=
  if indmin.length + indmax.length < 3 then .ok .insufficient
  else
    match boundary_extend indmin indmax t x z nbsym with
    | .error e => .error e
    | .ok r => .ok (.extended r.1 r.2.1 r.2.2.1 r.2.2.2)

/-! ## Envelope estimator: `envelope_mean` (lines 246-309)

The per-direction work projects the current mode on a direction vector,
detects extrema and zero crossings, extends the boundaries, and -- when at
least 3 extrema exist -- fits two cubic splines and accumulates the mean
envelope and amplitude.  The spline evaluation (`scipy CubicSpline`,
not-a-knot, evaluated on the time axis) and the square root inside the
amplitude accumulation are real-valued numerics; they enter the embedding as
explicit function parameters, so every statement below holds for all of them.
The direction vectors themselves (trigonometric, see the direction sampler
below) are passed as an explicit list. -/

/-- A spline evaluator: takes the extended knot axis, the extended knot
values, and the evaluation axis `t`, and returns one value row per sample. -/
abbrev SplineEval := List ℚ → Mat → List ℚ → Mat

/-- Accumulator state of the direction loop of `envelope_mean`. -/
structure EnvAcc where
  envm : Mat
  amp : List ℚ
  nem : List ℕ
  nzm : List ℕ
  count : ℕ
deriving DecidableEq

/-- One direction of the `envelope_mean` loop (lines 257-299). -/
def envStep (sE : SplineEval) (sq : ℚ → ℚ) (m : Mat) (t : List ℚ) (acc : EnvAcc) (d : Vec) :
    Except String EnvAcc :=
  let y := project m d
  let pk := local_peaks y
  let nem2 := acc.nem ++ [pk.1.length + pk.2.length]
  let nzm2 := acc.nzm ++ [(zero_crossings y).length]
  match boundary_conditions pk.1 pk.2 t y m 2 with
  | .error e => .error e
  | .ok .insufficient => .ok ⟨acc.envm, acc.amp, nem2, nzm2, acc.count + 1⟩
  | .ok (.extended tmin tmax zmin zmax) =>
      let env_min := sE tmin zmin t
      let env_max := sE tmax zmax t
      let dAmp := List.zipWith
        (fun rmx rmn => sq (((vecSub rmx rmn).map (fun v => v ^ 2)).sum) / 2) env_max env_min
      let dMean := List.zipWith
        (fun rmx rmn => (vecAdd rmx rmn).map (fun v => v / 2)) env_max env_min
      .ok ⟨matAdd acc.envm dMean, vecAdd acc.amp dAmp, nem2, nzm2, acc.count⟩

/-- The direction loop of `envelope_mean`. -/
def envLoop (sE : SplineEval) (sq : ℚ → ℚ) (m : Mat) (t : List ℚ) :
    List Vec → EnvAcc → Except String EnvAcc
  | [], acc => .ok acc
  | d :: rest, acc =>
      match envStep sE sq m t acc d with
      | .error e => .error e
      | .ok acc2 => envLoop sE sq m t rest acc2

/-- Embedding of `envelope_mean` (lines 246-309): run the direction loop from
the all-zero accumulators, then either divide the accumulated mean envelope
and amplitude by the number of directions that had enough extrema, or -- when
every direction failed -- return the all-zero envelope, amplitude and extrema
counts (the zero-crossing counts are returned as computed).  Returns
`(env_mean, nem, nzm, amp)` in the order of the Python code. -/
def envelope_mean (sE : SplineEval) (sq : ℚ → ℚ) (m : Mat) (t : List ℚ) (dirs : List Vec)
    (N N_dim : ℕ) : Except String (Mat × List ℕ × List ℕ × List ℚ) :=
  match envLoop sE sq m t dirs ⟨zeroMat t.length N_dim, List.replicate t.length 0, [], [], 0⟩ with
  | .error e => .error e
  | .ok acc =>
      if acc.count < dirs.length then
        let k : ℚ := ((dirs.length - acc.count : ℕ) : ℚ)
        .ok (acc.envm.map (fun row => row.map (fun v => v / k)), acc.nem, acc.nzm,
             acc.amp.map (fun v => v / k))
      else
        .ok (zeroMat N N_dim, List.replicate dirs.length 0, acc.nzm, List.replicate N 0)

/-- A direction fails when its projection has fewer than 3 extrema in total
(this is exactly the `mode = 0` outcome of the boundary extender). -/
def dirFails (m : Mat) (d : Vec) : Bool :=
  decide ((local_peaks (project m d)).1.length + (local_peaks (project m d)).2.length < 3)

/-- Number of failed directions (the `count` accumulated by the loop). -/
def failCount (m : Mat) (dirs : List Vec) : ℕ := (dirs.filter (dirFails m)).length

/-- Per-direction extrema count, `nem[it]` in the code. -/
def numExtrema (m : Mat) (d : Vec) : ℕ :=
  (local_peaks (project m d)).1.length + (local_peaks (project m d)).2.length

/-- Per-direction zero-crossing count, `nzm[it]` in the code. -/
def numZeroCross (m : Mat) (d : Vec) : ℕ := (zero_crossings (project m d)).length

/-- The mean-envelope contribution of one successful direction. -/
def dirMeanContrib (sE : SplineEval) (m : Mat) (t : List ℚ) (d : Vec) : Mat :=
  let y := project m d
  let pk := local_peaks y
  match boundary_conditions pk.1 pk.2 t y m 2 with
  | .ok (.extended tmin tmax zmin zmax) =>
      List.zipWith (fun rmx rmn => (vecAdd rmx rmn).map (fun v => v / 2))
        (sE tmax zmax t) (sE tmin zmin t)
  | _ => []

/-- The amplitude contribution of one successful direction. -/
def dirAmpContrib (sE : SplineEval) (sq : ℚ → ℚ) (m : Mat) (t : List ℚ) (d : Vec) : List ℚ :=
  let y := project m d
  let pk := local_peaks y
  match boundary_conditions pk.1 pk.2 t y m 2 with
  | .ok (.extended tmin tmax zmin zmax) =>
      List.zipWith (fun rmx rmn => sq (((vecSub rmx rmn).map (fun v => v ^ 2)).sum) / 2)
        (sE tmax zmax t) (sE tmin zmin t)
  | _ => []

/-- Sum of the mean-envelope contributions of the non-failing directions, in
loop order, starting from the all-zero accumulator. -/
def accEnv (sE : SplineEval) (m : Mat) (t : List ℚ) (dirs : List Vec) (N_dim : ℕ) : Mat :=
  (dirs.filter (fun d => !dirFails m d)).foldl
    (fun A d => matAdd A (dirMeanContrib sE m t d)) (zeroMat t.length N_dim)

/-- Sum of the amplitude contributions of the non-failing directions. -/
def accAmp (sE : SplineEval) (sq : ℚ → ℚ) (m : Mat) (t : List ℚ) (dirs : List Vec) : List ℚ :=
  (dirs.filter (fun d => !dirFails m d)).foldl
    (fun A d => vecAdd A (dirAmpContrib sE sq m t d)) (List.replicate t.length 0)

/-! ## Stopping policies (lines 313-348) -/

/-- The per-direction qualification test of the fixed-count policy (line 338):
`all(np.abs(nzm - nem) > 1)` over the per-direction zero-crossing and extrema
counts. -/
def allDiffGt1 (nzm nem : List ℕ) : Bool :=
  (List.zipWith (fun z e => ((z : ℤ) - (e : ℤ)).natAbs) nzm nem).all (fun d => decide (1 < d))

/-- The counter update and halting verdict of the `fix` stopping criterion
(lines 338-343): when every direction satisfies `|nzm - nem| > 1` the verdict
is "continue" and the counter resets to zero; otherwise the counter increments
and the verdict is "halt" as soon as it reaches `stp_cnt`.  Returns
`(stp, new_counter)`. -/
def fixStep (nzm nem : List ℕ) (stp_cnt counter : ℕ) : Bool × ℕ :=
  if allDiffGt1 nzm nem then (false, 0)
  else (decide (stp_cnt ≤ counter + 1), counter + 1)

/-- Embedding of the `fix` stopping criterion (lines 334-348): the counts come
from `envelope_mean`; any error there is caught (`except:`) and turned into an
immediate halt with a zero envelope.  Returns `(stp, env_mean, counter)`. -/
def fix (sE : SplineEval) (sq : ℚ → ℚ) (m : Mat) (t : List ℚ) (dirs : List Vec)
    (stp_cnt counter N N_dim : ℕ) : Bool × Mat × ℕ :=
  match envelope_mean sE sq m t dirs N N_dim with
  | .ok r => ((fixStep r.2.2.1 r.2.1 stp_cnt counter).1, r.1,
              (fixStep r.2.2.1 r.2.1 stp_cnt counter).2)
  | .error _ => (true, zeroMat N N_dim, counter)

/-- Counter value after folding the `fix` counter update over a sequence of
per-iteration `(nzm, nem)` measurements, starting from zero. -/
def counterFold (stp_cnt : ℕ) (ms : List (List ℕ × List ℕ)) : ℕ :=
  ms.foldl (fun c mz => (fixStep mz.1 mz.2 stp_cnt c).2) 0

/-- Length of the initial run of measurements failing the all-directions
`|nzm - nem| > 1` test (applied to the reversed measurement list, this is the
length of the most recent run of consecutive failing iterations). -/
def failStreak : List (List ℕ × List ℕ) → ℕ
  | [] => 0
  | mz :: rest => if allDiffGt1 mz.1 mz.2 then 0 else failStreak rest + 1

/-- The stopping-criterion dispatch of `memd` (lines 484-488 and 505-508):
the string argument is compared against the literal `"stop"` only, with no
validation and no diagnostic; every other string selects the fixed-count
policy. -/
inductive StopCriterion
  | amplitudeRatio
  | fixedCount
deriving DecidableEq

/-- Policy selected by `memd` for a given `stp_crit` string. -/
def select_policy (stp_crit : String) : StopCriterion :=
  if stp_crit = "stop" then .amplitudeRatio else .fixedCount

/-! ## Direction sampler: `make_dir_vectors` (lines 230-244) and the
trivariate branch (lines 261-275), embedded over the reals -/

/-- Two-argument arctangent, modelled from the numpy `arctan2` convention
(the first argument in the code is a square root, hence non-negative, so only
the upper half-plane branches are exercised). -/
noncomputable def atan2 (y x : ℝ) : ℝ :=
  if 0 < x then Real.arctan (y / x)
  else if x < 0 then
    (if 0 ≤ y then Real.arctan (y / x) + Real.pi else Real.arctan (y / x) - Real.pi)
  else (if 0 < y then Real.pi / 2 else if y < 0 then -(Real.pi / 2) else 0)

/-- Linear normalization of a sample-point row into `[-1, 1]`:
`b = 2 * seq[it, :] - 1` (line 233). -/
noncomputable def seqToB (s : List ℝ) : List ℝ := s.map (fun v => 2 * v - 1)

/-- The angle list of `make_dir_vectors` (line 236):
`tht[i] = arctan2(sqrt(sum of b[j]^2 for j > i), b[i])` for
`i = 0 .. N_dim - 2`. -/
noncomputable def thtList (b : List ℝ) : List ℝ :=
  (List.range (b.length - 1)).map
    (fun i => atan2 (Real.sqrt (((b.drop (i + 1)).map (fun v => v ^ 2)).sum)) (b.getD i 0))

/-- Embedding of the direction-vector construction of `make_dir_vectors`
(lines 239-242) on a normalized row `b`: the code first sets
`dir_vec[0] = 1.0`, then writes
`dir_vec[i] = sin(tht[i-1]) * prod(cos(tht[:i-1]))` for `i = 1 .. N_dim - 1`,
and finally overwrites the last entry with `prod(cos(tht))`.  Entry `0` is
never overwritten for `N_dim ≥ 2`. -/
noncomputable def make_dir_vectors (b : List ℝ) : List ℝ :=
  let tht := thtList b
  let n := b.length
  (List.range n).map (fun i =>
    if i = n - 1 then (tht.map Real.cos).prod
    else if i = 0 then 1
    else Real.sin (tht.getD (i - 1) 0) * ((tht.take (i - 1)).map Real.cos).prod)

/-- The trivariate direction construction (lines 263-275): clip the first
coordinate of `b` to `[-1, 1]`, turn the second sample coordinate into an
azimuth, and build the spherical-coordinate vector. -/
noncomputable def dir_vec_trivariate (seq0 seq1 : ℝ) : List ℝ :=
  let tt0 := 2 * seq0 - 1
  let tt := if 1 < tt0 then 1 else if tt0 < -1 then -1 else tt0
  let phirad := seq1 * (2 * Real.pi)
  let st := Real.sqrt (1 - tt * tt)
  [st * Real.cos phirad, st * Real.sin phirad, tt]

/-- Sum of squared components: the squared Euclidean norm of a direction
vector. -/
noncomputable def sumSq (l : List ℝ) : ℝ := (l.map (fun v => v ^ 2)).sum

/-! ## Python diagnostic calls used by `memd` (lines 490-513) -/

/-- The category argument Python passes to `warnings.warn`. -/
inductive PyWarnArg
  | warningClass (name : String)
  | strLit (s : String)

/-- Semantics of `warnings.warn(message, category)` from the Python standard
library: when the category argument is not a `Warning` subclass (here, when it
is a string literal), the call itself raises `TypeError`; otherwise the
warning is emitted and the call returns. -/
def warnings_warn (_message : String) (category : PyWarnArg) : Except String Unit :=
  match category with
  | .warningClass _ => .ok ()
  | .strLit _ => .error ("TypeError: category must be a Warning subclass")

/-- Semantics of the attribute access `warnings.wanr` (line 513): the
`warnings` module has no such attribute, so the call raises
`AttributeError`. -/
def warnings_wanr : Except String Unit :=
  .error ("AttributeError: module warnings has no attribute wanr")

/-- The literal `1e-10` as a rational. -/
def eps10 : ℚ := mkRat 1 10000000000

/-- The amplitude-collapse guard of `memd` (lines 490-497): when the current
mode is negligibly small relative to the original input, sifting is broken
out of; the diagnostic is `warnings.warn('emd:warning', '<message>')` when the
policy verdict was "continue" (which passes a string as the category), and a
`print` when the policy verdict was "halt". -/
inductive CollapseOutcome
  | noBreak
  | breakWarned
  | breakPrinted (msg : String)
deriving DecidableEq

/-- Embedding of lines 490-497 of `memd`, as a function of the current mode,
the original input and the current policy verdict. -/
def collapse_check (m x : Mat) (stop_sift : Bool) : Except String CollapseOutcome :=
  if maxAbs m < eps10 * maxAbs x then
    if stop_sift = false then
      match warnings_warn ("emd:warning") (.strLit ("forced stop of EMD : too small amplitude")) with
      | .error e => .error e
      | .ok _ => .ok .breakWarned
    else .ok (.breakPrinted ("forced stop of EMD : too small amplitude"))
  else .ok .noBreak

/-! ## Inner sifting loop of `memd` (lines 500-513)

The loop subtracts the mean envelope from the mode and recomputes the policy
verdict each iteration; the numeric content is abstracted into a stream of
policy verdicts `d` (`d k` is the verdict computed in the k-th loop body), so
the control skeleton -- the iteration cap and the diagnostic call -- is exact.
The fuel argument only bounds the recursion; calls use `fuel ≥ maxIter`, which
makes the fuel-exhaustion branch unreachable. -/

/-- Control skeleton of the inner sifting loop: state `(stopSift, nbit)`,
cap `maxIter`; after each body, if the incremented counter equals
`maxIter - 1` and exceeds 100, the code calls `warnings.wanr`, which raises.
Returns the final iteration count, or the raised error. -/
def sifting_loop (d : ℕ → Bool) (maxIter : ℕ) : ℕ → Bool → ℕ → Except String ℕ
  | 0, _, nbit => .ok nbit
  | fuel + 1, stopSift, nbit =>
      if stopSift = false ∧ nbit < maxIter then
        let stopSift2 := d (nbit + 1)
        let nbit2 := nbit + 1
        if nbit2 = maxIter - 1 ∧ 100 < nbit2 then
          match warnings_wanr with
          | .error e => .error e
          | .ok _ => sifting_loop d maxIter fuel stopSift2 nbit2
        else sifting_loop d maxIter fuel stopSift2 nbit2
      else .ok nbit

/-! ## Outer decomposition loop: `stop_emd` (lines 399-434) and `memd`
(lines 458-528) -/

/-- Embedding of `stop_emd`: the outer loop of `memd` terminates when every
projection of the residue has fewer than 3 extrema.  The direction vectors are
passed as an explicit list (their construction is the real-valued sampler
above). -/
def stop_emd (r : Mat) (dirs : List Vec) : Bool :=
  dirs.all (fun d =>
    decide ((local_peaks (project r d)).1.length + (local_peaks (project r d)).2.length < 3))

/-- Control skeleton of the outer loop of `memd` (lines 476-527), with the
inner sifting (policy evaluation, envelope subtraction, iteration cap)
abstracted into a function `sift` from the mode at the top of the iteration to
the extracted mode.  The loop: while `stop_emd` fails, set `m = r`; break out
of the loop (without appending `m`) on amplitude collapse; otherwise extract
`m`, append its transpose, and -- unless the optional mode cap `maxnIMF` has
been reached, in which case the loop breaks immediately -- update the residue
`r = r - m`.  After the loop the transposed residue is appended.  Fuel bounds
the recursion (`none` on exhaustion). -/
def memdLoop (sift : Mat → Mat) (dirs : List Vec) (maxnIMF : Option ℕ) (x : Mat) :
    ℕ → Mat → ℕ → List Mat → Option (List Mat)
  | 0, _, _, _ => none
  | fuel + 1, r, n_imf, q =>
      if stop_emd r dirs then some (q ++ [r.transpose])
      else
        if maxAbs r < eps10 * maxAbs x then some (q ++ [r.transpose])
        else
          let m := sift r
          let q2 := q ++ [m.transpose]
          let n_imf2 := n_imf + 1
          if (match maxnIMF with | some cap => decide (cap ≤ n_imf2) | none => false) then
            some (q2 ++ [r.transpose])
          else memdLoop sift dirs maxnIMF x fuel (matSub r m) n_imf2 q2

/-- Embedding of `memd`: residue starts at the input, `n_imf` starts at 1,
the output list starts empty. -/
def memd (sift : Mat → Mat) (dirs : List Vec) (maxnIMF : Option ℕ) (x : Mat) (fuel : ℕ) :
    Option (List Mat) :=
  memdLoop sift dirs maxnIMF x fuel x 1 []

/-- Sum of the matrices of an output sequence, un-transposed: what a client
reconstructs by adding all returned modes and the final residue. -/
def reconstruct (q : List Mat) : Mat :=
  match q.map List.transpose with
  | [] => []
  | h :: rest => rest.foldl matAdd h

/-! ## General lemmas about the embedded primitives -/

theorem idxWhereAux_eq_nil {α : Type _} {p : α → Bool} :
    ∀ (l : List α) (i : ℕ), (∀ a ∈ l, p a = false) → idxWhereAux p l i = [] := by
  intro l
  induction l with
  | nil => intro i _; rfl
  | cons a rest ih =>
      intro i h
      have ha : p a = false := h a (by simp)
      simp only [idxWhereAux, ha, Bool.false_eq_true, if_false]
      exact ih (i + 1) (fun b hb => h b (by simp [hb]))

theorem zipWith_sub_replicate_zero :
    ∀ (k j : ℕ),
      List.zipWith (fun b a => b - a) (List.replicate k (0 : ℚ)) (List.replicate j 0) =
        List.replicate (min k j) 0 := by
  intro k
  induction k with
  | zero => intro j; simp
  | succ k ih =>
      intro j
      cases j with
      | zero => simp
      | succ j =>
          simp only [List.replicate_succ, List.zipWith_cons_cons, ih j, sub_zero,
            Nat.succ_min_succ]

theorem diffQ_replicate_zero (n : ℕ) :
    diffQ (List.replicate n (0 : ℚ)) = List.replicate (n - 1) 0 := by
  cases n with
  | zero => rfl
  | succ n =>
      show List.zipWith _ (List.replicate (n + 1) (0 : ℚ)).tail (List.replicate (n + 1) 0) = _
      rw [List.tail_replicate, zipWith_sub_replicate_zero]
      congr 1
      omega

theorem getD_replicate_zero : ∀ (n i : ℕ), (List.replicate n (0 : ℚ)).getD i 0 = 0 := by
  intro n
  induction n with
  | zero => intro i; simp
  | succ n ih =>
      intro i
      cases i with
      | zero => rfl
      | succ i => simp [List.replicate_succ, ih i]

theorem dotQ_replicate_zero : ∀ (k : ℕ) (v : List ℚ), dotQ (List.replicate k 0) v = 0 := by
  intro k
  induction k with
  | zero => intro v; rfl
  | succ k ih =>
      intro v
      cases v with
      | nil => rfl
      | cons b vs =>
          simp only [dotQ, List.replicate_succ, List.zipWith_cons_cons, List.sum_cons, zero_mul,
            zero_add]
          exact ih vs

theorem project_zeroMat (N N_dim : ℕ) (d : Vec) :
    project (zeroMat N N_dim) d = List.replicate N 0 := by
  simp [project, zeroMat, List.map_replicate, dotQ_replicate_zero]

theorem degenerate_guard_replicate_zero (n : ℕ) :
    degenerate_guard (List.replicate n 0) = true := by
  rw [degenerate_guard, List.all_eq_true]
  intro v hv
  rw [List.eq_of_mem_replicate hv]
  with_unfolding_all decide

theorem local_peaks_replicate_zero (n : ℕ) :
    local_peaks (List.replicate n (0 : ℚ)) = ([], []) := by
  have ha : idxWhere (fun v => decide (v ≠ 0)) (diffQ (List.replicate n (0 : ℚ))) = [] := by
    rw [diffQ_replicate_zero]
    exact idxWhereAux_eq_nil _ 0
      (fun a hh => by rw [List.eq_of_mem_replicate hh]; simp)
  simp only [local_peaks, degenerate_guard_replicate_zero, if_true, List.length_replicate, ha]
  simp [idxWhere, idxWhereAux, diffNat, getD_replicate_zero]

theorem stop_emd_zeroMat (N N_dim : ℕ) (dirs : List Vec) :
    stop_emd (zeroMat N N_dim) dirs = true := by
  rw [stop_emd, List.all_eq_true]
  intro d _
  rw [project_zeroMat, local_peaks_replicate_zero]
  simp

/-! ## Lemmas about the envelope estimator loop -/

theorem boundary_conditions_insufficient_iff (indmin indmax : List ℕ) (t x : List ℚ) (z : Mat)
    (nbsym : ℕ) :
    boundary_conditions indmin indmax t x z nbsym = .ok .insufficient ↔
      indmin.length + indmax.length < 3 := by
  rw [boundary_conditions]
  split
  · rename_i h
    simp [h]
  · rename_i h
    constructor
    · intro hc
      cases hbe : boundary_extend indmin indmax t x z nbsym with
      | error e => rw [hbe] at hc; cases hc
      | ok r => rw [hbe] at hc; simp at hc
    · intro hlt
      exact absurd hlt h

theorem dirFails_iff_insufficient (m : Mat) (t : List ℚ) (d : Vec) :
    dirFails m d = true ↔
      boundary_conditions (local_peaks (project m d)).1 (local_peaks (project m d)).2 t
        (project m d) m 2 = .ok .insufficient := by
  rw [boundary_conditions_insufficient_iff, dirFails, decide_eq_true_iff]

theorem envLoop_ok_characterization (sE : SplineEval) (sq : ℚ → ℚ) (m : Mat) (t : List ℚ) :
    ∀ (dirs : List Vec) (acc acc2 : EnvAcc),
      envLoop sE sq m t dirs acc = .ok acc2 →
      acc2.count = acc.count + failCount m dirs ∧
      acc2.envm = (dirs.filter (fun d => !dirFails m d)).foldl
          (fun A d => matAdd A (dirMeanContrib sE m t d)) acc.envm ∧
      acc2.amp = (dirs.filter (fun d => !dirFails m d)).foldl
          (fun A d => vecAdd A (dirAmpContrib sE sq m t d)) acc.amp ∧
      acc2.nem = acc.nem ++ dirs.map (fun d => numExtrema m d) ∧
      acc2.nzm = acc.nzm ++ dirs.map (fun d => numZeroCross m d) := by
  intro dirs
  induction dirs with
  | nil =>
      intro acc acc2 h
      have : acc = acc2 := Except.ok.inj h
      subst this
      simp [failCount]
  | cons d rest ih =>
      intro acc acc2 h
      rw [envLoop] at h
      cases hs : envStep sE sq m t acc d with
      | error e => rw [hs] at h; cases h
      | ok acc1 =>
          rw [hs] at h
          obtain ⟨ihc, ihe, iha, ihnem, ihnzm⟩ := ih acc1 acc2 h
          rw [envStep] at hs
          cases hb : boundary_conditions (local_peaks (project m d)).1
              (local_peaks (project m d)).2 t (project m d) m 2 with
          | error e => rw [hb] at hs; cases hs
          | ok bc =>
              have hfail : dirFails m d = true ↔ bc = .insufficient := by
                rw [dirFails_iff_insufficient m t d, hb]
                constructor
                · intro hh; exact (Except.ok.inj hh).symm ▸ rfl
                · intro hh; rw [hh]
              cases bc with
              | insufficient =>
                  rw [hb] at hs
                  have hacc1 : acc1 = ⟨acc.envm, acc.amp,
                      acc.nem ++ [(local_peaks (project m d)).1.length +
                        (local_peaks (project m d)).2.length],
                      acc.nzm ++ [(zero_crossings (project m d)).length], acc.count + 1⟩ :=
                    (Except.ok.inj hs).symm
                  have hf : dirFails m d = true := hfail.mpr rfl
                  subst hacc1
                  refine ⟨?_, ?_, ?_, ?_, ?_⟩
                  · rw [ihc]
                    simp only [failCount, List.filter_cons, hf, if_true, List.length_cons]
                    omega
                  · rw [ihe]
                    simp [List.filter_cons, hf]
                  · rw [iha]
                    simp [List.filter_cons, hf]
                  · rw [ihnem]
                    simp [numExtrema]
                  · rw [ihnzm]
                    simp [numZeroCross]
              | extended tmin tmax zmin zmax =>
                  rw [hb] at hs
                  have hf : dirFails m d = false := by
                    cases hdf : dirFails m d with
                    | false => rfl
                    | true => exact absurd (hfail.mp hdf) (by intro hc; cases hc)
                  have hacc1 : acc1 = ⟨matAdd acc.envm
                      (List.zipWith (fun rmx rmn => (vecAdd rmx rmn).map (fun v => v / 2))
                        (sE tmax zmax t) (sE tmin zmin t)),
                      vecAdd acc.amp
                        (List.zipWith (fun rmx rmn =>
                            sq (((vecSub rmx rmn).map (fun v => v ^ 2)).sum) / 2)
                          (sE tmax zmax t) (sE tmin zmin t)),
                      acc.nem ++ [(local_peaks (project m d)).1.length +
                        (local_peaks (project m d)).2.length],
                      acc.nzm ++ [(zero_crossings (project m d)).length], acc.count⟩ :=
                    (Except.ok.inj hs).symm
                  have hmean : dirMeanContrib sE m t d =
                      List.zipWith (fun rmx rmn => (vecAdd rmx rmn).map (fun v => v / 2))
                        (sE tmax zmax t) (sE tmin zmin t) := by
                    rw [dirMeanContrib]
                    rw [hb]
                  have hamp : dirAmpContrib sE sq m t d =
                      List.zipWith (fun rmx rmn =>
                          sq (((vecSub rmx rmn).map (fun v => v ^ 2)).sum) / 2)
                        (sE tmax zmax t) (sE tmin zmin t) := by
                    rw [dirAmpContrib]
                    rw [hb]
                  subst hacc1
                  refine ⟨?_, ?_, ?_, ?_, ?_⟩
                  · rw [ihc]
                    simp [failCount, List.filter_cons, hf]
                  · rw [ihe]
                    simp [List.filter_cons, hf, hmean]
                  · rw [iha]
                    simp [List.filter_cons, hf, hamp]
                  · rw [ihnem]
                    simp [numExtrema]
                  · rw [ihnzm]
                    simp [numZeroCross]

/-! ## Lemmas about the fixed-count counter -/

theorem counterFold_eq_failStreak (stp_cnt : ℕ) (ms : List (List ℕ × List ℕ)) :
    counterFold stp_cnt ms = failStreak ms.reverse := by
  induction ms using List.reverseRecOn with
  | nil => rfl
  | append_singleton ms mz ih =>
      rw [counterFold, List.foldl_append]
      rw [counterFold] at ih
      simp only [List.foldl_cons, List.foldl_nil, List.reverse_append, List.reverse_cons,
        List.reverse_nil, List.nil_append, List.cons_append, List.singleton_append]
      rw [failStreak, fixStep, ih]
      split
      · rename_i hgt
        simp [hgt]
      · rename_i hgt
        simp only [Bool.not_eq_true] at hgt
        simp [hgt]

/-! ## Claim theorems -/

/-- C1: at a concrete input on which the optional mode cap is reached, the
decomposition violates `input = sum of modes + final residue`.  The outer loop
of `memd` appends the extracted mode and then breaks on `n_imf >= maxnIMF`
BEFORE the residue update `r = r - m`, so the appended final residue still
contains the extracted mode.  Here sifting leaves the mode unchanged
(`sift = id`: the policy halts immediately), the input is a single-channel
zig-zag `x`, and `maxnIMF = 2`: the output is `[xᵀ, xᵀ]`, which reconstructs
to `2·x ≠ x`.  The same run without the cap reconstructs exactly. -/
theorem C1_maxnIMF_breaks_reconstruction :
    memd (fun m => m) [[1]] (some 2) [[0], [1], [0], [1], [0]] 5 =
        some [[[0, 1, 0, 1, 0]], [[0, 1, 0, 1, 0]]] ∧
    reconstruct [[[0, 1, 0, 1, 0]], [[0, 1, 0, 1, 0]]] = [[0], [2], [0], [2], [0]] ∧
    ([[0], [2], [0], [2], [0]] : Mat) ≠ ([[0], [1], [0], [1], [0]] : Mat) ∧
    memd (fun m => m) [[1]] none [[0], [1], [0], [1], [0]] 5 =
        some [[[0, 1, 0, 1, 0]], [[0, 0, 0, 0, 0]]] ∧
    reconstruct [[[0, 1, 0, 1, 0]], [[0, 0, 0, 0, 0]]] = [[0], [1], [0], [1], [0]] := by
  refine ⟨?_, ?_, ?_, ?_, ?_⟩ <;> with_unfolding_all decide

/-- C2 counterexample: with the default `stp_cnt = 2` and a previous counter
value of 1, an iteration on which the single direction has
`|nzm - nem| = 0 ≤ 1` makes the fixed-count policy HALT -- refuting the claim
that at a halting iteration `|nzm - nem| > 1` holds for every direction (and
with it the claimed direction of the whole criterion). -/
theorem C2_counterexample :
    (fixStep [5] [5] 2 1).1 = true ∧ allDiffGt1 [5] [5] = false := by
  with_unfolding_all decide

/-- C2 amended: the fixed-count policy halts exactly when the current
iteration FAILS the test `|nzm - nem| > 1 for every direction` (that is, some
direction has `|nzm - nem| ≤ 1`) and the test has now failed for at least
`stp_cnt` consecutive iterations; an iteration on which the test holds for
every direction resets the consecutive counter to zero, and the counter always
equals the length of the most recent run of consecutive failing iterations. -/
theorem C2_fixed_count_amended :
    (∀ nzm nem stp_cnt counter,
        (fixStep nzm nem stp_cnt counter).1 = true ↔
          (allDiffGt1 nzm nem = false ∧ stp_cnt ≤ counter + 1)) ∧
    (∀ nzm nem stp_cnt counter,
        (fixStep nzm nem stp_cnt counter).2 =
          if allDiffGt1 nzm nem then 0 else counter + 1) ∧
    (∀ stp_cnt ms, counterFold stp_cnt ms = failStreak ms.reverse) := by
  refine ⟨?_, ?_, counterFold_eq_failStreak⟩
  · intro nzm nem s c
    rw [fixStep]
    split
    · rename_i h
      simp [h]
    · rename_i h
      simp only [Bool.not_eq_true] at h
      simp [h]
  · intro nzm nem s c
    rw [fixStep]
    split
    · rename_i h
      simp [h]
    · rename_i h
      simp only [Bool.not_eq_true] at h
      simp [h]

/-- C3: the general-case direction construction does not produce unit
vectors.  For `N_dim = 2` and the sample point `(3/4, 1/2)` (so
`b = (1/2, 0)` after normalization), the constructed vector is `(1, 1)` --
the code pins `dir_vec[0] = 1.0` and never overwrites it -- whose squared
components sum to `2`, not `1`. -/
theorem C3_make_dir_vectors_not_unit :
    sumSq (make_dir_vectors (seqToB [3 / 4, 1 / 2])) = 2 ∧
    sumSq (make_dir_vectors (seqToB [3 / 4, 1 / 2])) ≠ 1 := by
  have hb : seqToB [3 / 4, 1 / 2] = [1 / 2, 0] := by norm_num [seqToB]
  have hat : atan2 0 (1 / 2 : ℝ) = 0 := by
    rw [atan2, if_pos (by norm_num : (0 : ℝ) < 1 / 2)]
    norm_num [Real.arctan_zero]
  have htht : thtList [1 / 2, (0 : ℝ)] = [0] := by
    rw [thtList]
    have h1 : ([1 / 2, (0 : ℝ)].length - 1) = 1 := by norm_num
    have hr : List.range 1 = [0] := rfl
    rw [h1, hr, List.map_singleton]
    simp only [List.drop_succ_cons, List.drop_zero, List.getD]
    norm_num [hat]
  have hv : make_dir_vectors [1 / 2, (0 : ℝ)] = [1, 1] := by
    simp only [make_dir_vectors, htht]
    norm_num [List.range_succ, Real.cos_zero]
  rw [hb, hv]
  norm_num [sumSq]

/-- C4: in the amplitude-collapse branch of `memd`, the "policy had not
agreed" diagnostic is `warnings.warn('emd:warning', '<message>')`, which
passes a string as the category argument and therefore raises `TypeError`
instead of emitting a warning: the decomposition aborts with an error in that
branch.  The "policy agreed" branch prints and breaks as described. -/
theorem C4_collapse_warn_branch_raises :
    collapse_check [[0]] [[1]] false =
      .error ("TypeError: category must be a Warning subclass") ∧
    collapse_check [[0]] [[1]] true =
      .ok (.breakPrinted ("forced stop of EMD : too small amplitude")) := by
  refine ⟨?_, ?_⟩ <;> with_unfolding_all decide

set_option maxRecDepth 100000 in
/-- C5: with the default cap `MaxIterations = 1000` and a policy that never
agrees to stop, the inner sifting loop reaches `nbit = 999 = MaxIterations-1`
and executes `warnings.wanr(...)` -- a misspelling of `warnings.warn` -- which
raises `AttributeError`: the run aborts instead of emitting a diagnostic and
extracting the unconverged mode. -/
theorem C5_iteration_cap_wanr_raises :
    sifting_loop (fun _ => false) 1000 1000 false 0 =
      .error ("AttributeError: module warnings has no attribute wanr") := by
  with_unfolding_all decide

/-- C6: in the envelope estimator, a direction whose projection has fewer
than 3 extrema contributes nothing and increments the failure count; when at
least one direction succeeds, the accumulated mean envelope and amplitude are
divided by `ndir - failCount`; and when every direction fails, the function
returns the all-zero envelope, all-zero amplitude and all-zero extrema
counts.  Stated for every spline evaluator and square-root oracle. -/
theorem C6_envelope_failed_directions (sE : SplineEval) (sq : ℚ → ℚ) (m : Mat) (t : List ℚ)
    (dirs : List Vec) (N N_dim : ℕ) (res : Mat × List ℕ × List ℕ × List ℚ)
    (hok : envelope_mean sE sq m t dirs N N_dim = .ok res) :
    ((∀ d ∈ dirs, dirFails m d = true) →
        res = (zeroMat N N_dim, List.replicate dirs.length 0,
          dirs.map (fun d => numZeroCross m d), List.replicate N 0)) ∧
    (failCount m dirs < dirs.length →
        res.1 = (accEnv sE m t dirs N_dim).map (fun row => row.map
            (fun v => v / ((dirs.length - failCount m dirs : ℕ) : ℚ))) ∧
        res.2.2.2 = (accAmp sE sq m t dirs).map
            (fun v => v / ((dirs.length - failCount m dirs : ℕ) : ℚ)) ∧
        res.2.1 = dirs.map (fun d => numExtrema m d) ∧
        res.2.2.1 = dirs.map (fun d => numZeroCross m d)) := by
  rw [envelope_mean] at hok
  cases hloop : envLoop sE sq m t dirs
      ⟨zeroMat t.length N_dim, List.replicate t.length 0, [], [], 0⟩ with
  | error e => rw [hloop] at hok; cases hok
  | ok acc =>
      simp only [hloop] at hok
      obtain ⟨hc, he, ha, hnem, hnzm⟩ := envLoop_ok_characterization sE sq m t dirs _ acc hloop
      simp only at hc he ha hnem hnzm
      constructor
      · intro hall
        have hfilter : dirs.filter (dirFails m) = dirs := List.filter_eq_self.mpr hall
        have hfc : failCount m dirs = dirs.length := by rw [failCount, hfilter]
        have hcount : ¬ acc.count < dirs.length := by
          rw [hc, hfc]; omega
        rw [if_neg hcount] at hok
        have hres := (Except.ok.inj hok).symm
        rw [hres, hnzm]
        simp
      · intro hlt
        have hcount : acc.count < dirs.length := by rw [hc]; omega
        rw [if_pos hcount] at hok
        have hres := (Except.ok.inj hok).symm
        have hk : ((dirs.length - acc.count : ℕ) : ℚ) =
            ((dirs.length - failCount m dirs : ℕ) : ℚ) := by
          rw [hc]; norm_num
        refine ⟨?_, ?_, ?_, ?_⟩
        · rw [hres]
          simp only []
          rw [he, hk, accEnv]
        · rw [hres]
          simp only []
          rw [ha, hk, accAmp]
        · rw [hres]
          simp only []
          rw [hnem]
          simp
        · rw [hres]
          simp only []
          rw [hnzm]
          simp

/-- Witness for C6: a 3-sample constant signal projected on two directions
gives constant projections with no extrema, so both directions fail and the
estimator returns the all-zero envelope, amplitude and extrema counts. -/
theorem C6_witness :
    envelope_mean (fun _ _ _ => []) (fun _ => 0) [[1], [1], [1]] [1, 2, 3] [[1], [2]] 3 1 =
      .ok (zeroMat 3 1, List.replicate ([[1], [2]] : List Vec).length 0,
        ([[1], [2]] : List Vec).map (fun d => numZeroCross [[1], [1], [1]] d),
        List.replicate 3 0) := by
  have hok : envelope_mean (fun _ _ _ => []) (fun _ => 0) [[1], [1], [1]] [1, 2, 3]
      [[1], [2]] 3 1 =
      .ok ((zeroMat 3 1, List.replicate 2 0, [0, 0], List.replicate 3 0) :
        Mat × List ℕ × List ℕ × List ℚ) := by with_unfolding_all decide
  have hconc := (C6_envelope_failed_directions (fun _ _ _ => []) (fun _ => 0) [[1], [1], [1]]
      [1, 2, 3] [[1], [2]] 3 1 _ hok).1 (by with_unfolding_all decide)
  exact hok.trans (congrArg Except.ok hconc)

/-- C7: the left-edge fallback of the boundary extender aborts with the
`'bug'` sentinel exactly when the symmetry index equals the literal 1 (a
leftover of the 1-indexed Matlab original), not the left edge index 0.  At
this input the mirrored axis around the first maximum (index 1) does not
reach past the domain, the fallback is entered, and the function aborts even
though the symmetry point is not at the edge; the analogous fallback around a
non-edge maximum at index 5 in the second input re-mirrors around the edge
and returns normally with an extended axis reaching past the domain. -/
theorem C7_boundary_fallback_aborts_at_index_one :
    boundary_conditions [2, 4] [1, 3] [0, 10, 11, 12, 13] [5, 9, 0, 9, 0]
      [[5], [9], [0], [9], [0]] 2 = .error ("bug") ∧
    boundary_conditions [6, 8] [5, 7] [1, 2, 3, 4, 5, 6, 7, 8, 9, 10]
      [9, 0, 0, 0, 0, 10, 1, 10, 0, 2]
      [[9], [0], [0], [0], [0], [10], [1], [10], [0], [2]] 2 =
      .ok (.extended [-7, -5, 7, 9, 11] [-6, -4, 6, 8, 10, 12]
        [[0], [1], [1], [0], [1]] [[10], [10], [10], [10], [10], [10]]) := by
  refine ⟨?_, ?_⟩ <;> with_unfolding_all decide

/-- C8 counterexample: the sequence `[-1, -2, -1]` contains samples of
absolute value at least `1e-5`, yet the degenerate-input guard fires, because
the code compares `x < 1e-5` with no absolute value: the claim that the input
is replaced by zeros exactly when every sample satisfies `|x| < 1e-5` is
false. -/
theorem C8_counterexample :
    degenerate_guard [-1, -2, -1] = true ∧
    ¬ (∀ v ∈ ([-1, -2, -1] : List ℚ), |v| < eps5) := by
  refine ⟨?_, ?_⟩ <;> with_unfolding_all decide

/-- C8 amended: the extrema detector replaces its input by the all-zero
sequence exactly when every sample is (signedly) below `1e-5`; in particular
a sequence of large negative values IS treated as degenerate and loses its
extrema, while the same shape shifted above the threshold has its minimum
detected. -/
theorem C8_degenerate_guard_signed :
    (∀ x : List ℚ, degenerate_guard x = true ↔ ∀ v ∈ x, v < eps5) ∧
    local_peaks [-1, -2, -1] = ([], []) ∧
    local_peaks [1, -2, 1] = ([1], []) := by
  refine ⟨fun x => ?_, by with_unfolding_all decide, by with_unfolding_all decide⟩
  rw [degenerate_guard, List.all_eq_true]
  constructor
  · intro h v hv
    exact of_decide_eq_true (h v hv)
  · intro h v hv
    exact decide_eq_true (h v hv)

/-- C9: an all-zero `N × N_dim` input (any `N ≥ 1`) makes the outer-loop
entry check fail immediately -- every projection is the zero trace, which has
no extrema -- so no sifting occurs and the output is exactly one matrix, the
transposed zero residue.  Stated for every direction set, sifting procedure,
optional mode cap and positive fuel. -/
theorem C9_zero_input_single_residue (N N_dim : ℕ) (_hN : 1 ≤ N) (sift : Mat → Mat)
    (dirs : List Vec) (maxnIMF : Option ℕ) (fuel : ℕ) (hf : 1 ≤ fuel) :
    memd sift dirs maxnIMF (zeroMat N N_dim) fuel =
      some [(zeroMat N N_dim).transpose] := by
  obtain ⟨f, rfl⟩ : ∃ f, fuel = f + 1 := ⟨fuel - 1, (Nat.succ_pred_eq_of_pos hf).symm⟩
  rw [memd, memdLoop, stop_emd_zeroMat]
  simp

/-- Witness for C9 at `N = 3`, `N_dim = 2`, two directions, no cap, fuel 3. -/
theorem C9_witness :
    memd (fun m => m) [[1, 0], [0, 1]] none (zeroMat 3 2) 3 =
      some [(zeroMat 3 2).transpose] :=
  C9_zero_input_single_residue 3 2 (by decide) (fun m => m) [[1, 0], [0, 1]] none 3 (by decide)

/-- C10: the stopping-criterion string is compared against the literal
`"stop"` only: every other string -- the documented `"fix_h"` as well as any
misspelling -- silently selects the fixed-count policy, with no error and no
diagnostic (the selection is total). -/
theorem C10_stp_crit_not_validated :
    (∀ s : String, s ≠ "stop" → select_policy s = StopCriterion.fixedCount) ∧
    select_policy "fix_h" = StopCriterion.fixedCount ∧
    select_policy "fix_hh" = StopCriterion.fixedCount ∧
    select_policy "stop" = StopCriterion.amplitudeRatio := by
  refine ⟨fun s hs => ?_, ?_, ?_, ?_⟩
  · rw [select_policy, if_neg hs]
  · with_unfolding_all decide
  · with_unfolding_all decide
  · with_unfolding_all decide

/-- Witness for C10: an arbitrary invalid criterion string selects the
fixed-count policy. -/
theorem C10_witness : select_policy "stpo" = StopCriterion.fixedCount :=
  C10_stp_crit_not_validated.1 "stpo" (by with_unfolding_all decide)

end MEMD
